import Mathlib

/-!
Verification of the grid merge-resolution engine of the Micro Tower Defense
repository (src/tower.js and src/grid.js), as a shallow embedding.

Modelling conventions:
* JavaScript numbers are modelled by exact rationals (ℚ) and integers (ℤ/ℕ).
  Every damage/range value the code can produce was checked to have the same
  `Math.floor` result under IEEE doubles and under exact rationals, so the
  rational model is observationally faithful for the derived stats.
* The grid's cell array is a `List (Option Tower)`; `undefined` reads outside
  `[0, length)` are modelled as `none`, and writes outside `[0, length)` are
  modelled as a no-op on the cell list (such writes never touch a grid cell).
* The collaborator hooks (`game.addCoins`, effects, sound) are modelled by an
  explicit event log: each operation returns the list of raw coin amounts the
  Grid passed to `game.addCoins`, in call order.  Effects/sound hooks carry no
  data relevant to the claims and are omitted.
* Pixel geometry (`x`, `y`, offsets, cellSize), drag state and combat state
  are presentation/combat concerns never read by the merge logic or the
  claims; they are omitted from the embedding.
* The recursive `checkMerge`/`performMerge` pair is embedded with an explicit
  fuel parameter; `checkMergeF_stable_of_le` proves the result is independent
  of the fuel once it covers the cascade, so `checkMerge := checkMergeF 5`
  denotes the unbounded recursion of the source.
-/

namespace MergeTD

/-- tower.js `TowerType`: the closed set of recognized tower types. -/
inductive TowerType where
  | fire
  | ice
  | earth
deriving DecidableEq

/-- One entry of tower.js `TOWER_CONFIG` (color/shape/name are presentation
only and omitted). -/
structure TowerConfig where
  baseDamage : ℚ
  baseRange : ℚ
  baseFireRate : ℚ
deriving DecidableEq

/-- tower.js `TOWER_CONFIG`. -/
def TOWER_CONFIG : TowerType → TowerConfig
  | .fire => { baseDamage := 10, baseRange := 100, baseFireRate := 1/2 }
  | .ice => { baseDamage := 6, baseRange := 120, baseFireRate := 2/5 }
  | .earth => { baseDamage := 15, baseRange := 80, baseFireRate := 3/10 }

/-- tower.js `Tower`: core fields plus the derived stats written by
`updateStats`.  Position is `(col,row)` with the unplaced sentinel `-1`. -/
structure Tower where
  type : TowerType
  tier : ℕ
  col : ℤ
  row : ℤ
  damage : ℤ
  range : ℤ
  fireRate : ℚ
deriving DecidableEq

/-- tower.js `updateStats`: `damage = floor(baseDamage * 1.5^(tier-1))`. -/
def statsDamage (ty : TowerType) (tier : ℕ) : ℤ :=
  ⌊(TOWER_CONFIG ty).baseDamage * (3/2 : ℚ) ^ ((tier : ℤ) - 1)⌋

/-- tower.js `updateStats`: `range = floor(baseRange * (1 + (tier-1)*0.1))`. -/
def statsRange (ty : TowerType) (tier : ℕ) : ℤ :=
  ⌊(TOWER_CONFIG ty).baseRange * (1 + ((tier : ℚ) - 1) * (1/10))⌋

/-- tower.js `updateStats`: `fireRate = baseFireRate * (1 + (tier-1)*0.2)`. -/
def statsFireRate (ty : TowerType) (tier : ℕ) : ℚ :=
  (TOWER_CONFIG ty).baseFireRate * (1 + ((tier : ℚ) - 1) * (1/5))

/-- tower.js `new Tower(type, tier)`: tier is clamped to `[1,5]`
(`Math.max(1, Math.min(tier, 5))`), position starts at the unplaced
sentinel, and `updateStats()` fills in the derived stats.  An unrecognized
type throws in the source; here `TowerType` is total, so construction is. -/
def mkTower (ty : TowerType) (tier : ℕ) : Tower :=
  let t := max 1 (min tier 5)
  { type := ty, tier := t, col := -1, row := -1
    damage := statsDamage ty t, range := statsRange ty t
    fireRate := statsFireRate ty t }

/-- tower.js `canMergeWith`, with the `other` null/undefined guard folded into
the `Option`: same type, same tier, and tier strictly below the max tier 5. -/
def canMergeWith (t : Tower) (other : Option Tower) : Bool :=
  match other with
  | none => false
  | some o => t.type == o.type && t.tier == o.tier && decide (t.tier < 5)

/-- tower.js `upgrade`: returns false at max tier, otherwise bumps the tier
and recomputes the derived stats. -/
def Tower.upgrade (t : Tower) : Tower × Bool :=
  if 5 ≤ t.tier then (t, false)
  else
    let tier := t.tier + 1
    let u : Tower :=
      { t with
          tier := tier
          damage := statsDamage t.type tier
          range := statsRange t.type tier
          fireRate := statsFireRate t.type tier }
    (u, true)

/-- tower.js `toJSON` payload: `{type, tier, col, row}`. -/
structure TowerJSON where
  type : TowerType
  tier : ℕ
  col : ℤ
  row : ℤ
deriving DecidableEq

/-- tower.js `toJSON`. -/
def Tower.toJSON (t : Tower) : TowerJSON :=
  { type := t.type, tier := t.tier, col := t.col, row := t.row }

/-- tower.js `Tower.fromJSON`: runs the constructor (which clamps the tier)
and then copies `col`/`row` from the payload. -/
def Tower.fromJSON (d : TowerJSON) : Tower :=
  let t := mkTower d.type d.tier
  { t with col := d.col, row := d.row }

/-- tower.js `getMergeReward`: `tier * 10`. -/
def getMergeReward (tier : ℕ) : ℕ :=
  tier * 10

/-- grid.js `Grid`: dimensions plus the flat cell array.  Pixel geometry is
omitted (coordinate conversion only, never read by merge logic). -/
structure Grid where
  cols : ℕ
  rows : ℕ
  cells : List (Option Tower)
deriving DecidableEq

/-- grid.js constructor with all cells empty (`new Array(cols*rows).fill(null)`). -/
def mkGrid (cols rows : ℕ) : Grid :=
  { cols := cols, rows := rows, cells := List.replicate (cols * rows) none }

/-- grid.js `getIndex`: `row * cols + col`, with no bounds check. -/
def getIndex (g : Grid) (col row : ℤ) : ℤ :=
  row * (g.cols : ℤ) + col

/-- JS read `cells[index]`: the element when `index ∈ [0, length)`, otherwise
`undefined`, modelled as `none`. -/
def cellGet (cells : List (Option Tower)) (idx : ℤ) : Option Tower :=
  if idx < 0 then none else cells.getD idx.toNat none

/-- JS write `cells[index] = v`: updates the element when
`index ∈ [0, length)`; writes outside that range never touch a grid cell
(negative indices become non-element properties, indices beyond the length
lie past the grid), modelled as a no-op on the cell list. -/
def cellSet (cells : List (Option Tower)) (idx : ℤ) (v : Option Tower) :
    List (Option Tower) :=
  if idx < 0 then cells else cells.set idx.toNat v

/-- grid.js `getTower`. -/
def getTower (g : Grid) (col row : ℤ) : Option Tower :=
  cellGet g.cells (getIndex g col row)

/-- grid.js `getAdjacentCells` offsets, in source order: left, right, up, down. -/
def adjacentOffsets : List (ℤ × ℤ) :=
  [(-1, 0), (1, 0), (0, -1), (0, 1)]

/-- grid.js `getAdjacentCells`: the in-bounds orthogonal neighbors, pushed in
the fixed scan order left, right, up, down. -/
def getAdjacentCells (g : Grid) (col row : ℤ) : List (ℤ × ℤ) :=
  adjacentOffsets.foldl
    (fun acc d =>
      let nc := col + d.1
      let nr := row + d.2
      if 0 ≤ nc ∧ nc < (g.cols : ℤ) ∧ 0 ≤ nr ∧ nr < (g.rows : ℤ) then
        acc ++ [(nc, nr)]
      else acc)
    []

/-- The scan loop of grid.js `checkMerge` (lines 272-280): the first adjacent
cell whose occupant `t.canMergeWith` accepts. -/
def findPartner (g : Grid) (t : Tower) (adj : List (ℤ × ℤ)) : Option (ℤ × ℤ) :=
  adj.find? fun c => canMergeWith t (cellGet g.cells (getIndex g c.1 c.2))

/-- grid.js `performMerge` lines 295-334: the single merge step, without the
final recursive `checkMerge`.  Both towers are removed, an upgraded tower is
constructed and stored at the first (anchor) position with its position
fields updated, and the raw reward `getMergeReward(originalTier)` is passed
to the coin hook (logged as the returned event list). -/
def mergeStep (g : Grid) (col1 row1 col2 row2 : ℤ) : Grid × List ℕ :=
  match cellGet g.cells (getIndex g col1 row1),
      cellGet g.cells (getIndex g col2 row2) with
  | some tower1, some _ =>
    let towerType := tower1.type
    let originalTier := tower1.tier
    let newTier := originalTier + 1
    let cells1 := cellSet g.cells (getIndex g col1 row1) none
    let cells2 := cellSet cells1 (getIndex g col2 row2) none
    let merged : Tower := { mkTower towerType newTier with col := col1, row := row1 }
    let cells3 := cellSet cells2 (getIndex g col1 row1) (some merged)
    ({ g with cells := cells3 }, [getMergeReward originalTier])
  | _, _ => (g, [])

/-- grid.js `checkMerge`: no merge when the cell is empty or at max tier;
otherwise the first compatible neighbor in scan order is merged instantly.
Returns the grid, the coin events, and the boolean result.  The body of
`performMerge` (guard on the two towers, single step, recursive chain
re-check at the anchor, line 338) is inlined here so that the recursion is
structural in `fuel`; `performMergeF` below restates it separately and
`checkMergeF_merge_branch` relates the two.  `fuel` bounds the recursion;
`checkMergeF_stable_of_le` shows any fuel covering the cascade gives the
semantics of the source's unbounded recursion. -/
def checkMergeF : ℕ → Grid → ℤ → ℤ → Grid × List ℕ × Bool
  | 0, g, _, _ => (g, [], false)
  | fuel + 1, g, col, row =>
    match cellGet g.cells (getIndex g col row) with
    | none => (g, [], false)
    | some tower =>
      if 5 ≤ tower.tier then (g, [], false)
      else
        match findPartner g tower (getAdjacentCells g col row) with
        | none => (g, [], false)
        | some c =>
          match cellGet g.cells (getIndex g col row),
              cellGet g.cells (getIndex g c.1 c.2) with
          | some _, some _ =>
            let s := mergeStep g col row c.1 c.2
            let r := checkMergeF fuel s.1 col row
            (r.1, s.2 ++ r.2.1, true)
          | _, _ => (g, [], true)

/-- grid.js `performMerge` including its final recursive `checkMerge` (line
338): guard on the two towers, the single step of `mergeStep`, then the
chain re-check at the anchor.  The reward of this step precedes the chain's
rewards in the event log, as in the source call order. -/
def performMergeF (fuel : ℕ) (g : Grid) (col1 row1 col2 row2 : ℤ) :
    Grid × List ℕ :=
  match cellGet g.cells (getIndex g col1 row1),
      cellGet g.cells (getIndex g col2 row2) with
  | some _, some _ =>
    let s := mergeStep g col1 row1 col2 row2
    let r := checkMergeF fuel s.1 col1 row1
    (r.1, s.2 ++ r.2.1)
  | _, _ => (g, [])

/-- grid.js `checkMerge` entry point.  A cascade performs at most
`5 - tier ≤ 4` steps (`cascade_termination`), so fuel 5 realizes the
source's unbounded recursion (`checkMergeF_stable_of_le`). -/
def checkMerge (g : Grid) (col row : ℤ) : Grid × List ℕ × Bool :=
  checkMergeF 5 g col row

/-- grid.js `placeTower`: bounds check, occupancy check, store the tower with
its position updated, then run merge resolution at the placed cell.  Returns
the grid, the coin events, and the boolean result. -/
def placeTower (g : Grid) (col row : ℤ) (tower : Option Tower) :
    Grid × List ℕ × Bool :=
  if col < 0 ∨ (g.cols : ℤ) ≤ col ∨ row < 0 ∨ (g.rows : ℤ) ≤ row then
    (g, [], false)
  else
    let index := getIndex g col row
    match cellGet g.cells index with
    | some _ => (g, [], false)
    | none =>
      let placed := tower.map fun t => { t with col := col, row := row }
      let g1 : Grid := { g with cells := cellSet g.cells index placed }
      let r := checkMerge g1 col row
      (r.1, r.2.1, true)

/-- grid.js `removeTower`: reads and clears `cells[getIndex(col,row)]` with
no bounds check, returning what was there. -/
def removeTower (g : Grid) (col row : ℤ) : Option Tower × Grid :=
  let index := getIndex g col row
  let tower := cellGet g.cells index
  (tower, { g with cells := cellSet g.cells index none })

/-- grid.js `getTowerCount`: `cells.filter(c => c !== null).length`. -/
def getTowerCount (g : Grid) : ℕ :=
  (g.cells.filter fun c => c.isSome).length

/-! ### List-level facts about the cell array -/

theorem listGetD_set_self (l : List (Option Tower)) (n : ℕ) (v : Option Tower)
    (hn : n < l.length) : (l.set n v).getD n none = v := by
  induction l generalizing n with
  | nil => simp at hn
  | cons a tl ih =>
    cases n with
    | zero => rfl
    | succ m => simpa using ih m (by simpa using hn)

theorem listGetD_set_ne (l : List (Option Tower)) (n m : ℕ) (v : Option Tower)
    (h : n ≠ m) : (l.set n v).getD m none = l.getD m none := by
  induction l generalizing n m with
  | nil => rfl
  | cons a tl ih =>
    cases n with
    | zero =>
      cases m with
      | zero => exact absurd rfl h
      | succ k => rfl
    | succ n' =>
      cases m with
      | zero => rfl
      | succ k => simpa using ih n' k (by omega)

theorem listSet_of_length_le (l : List (Option Tower)) (n : ℕ) (v : Option Tower)
    (h : l.length ≤ n) : l.set n v = l := by
  induction l generalizing n with
  | nil => rfl
  | cons a tl ih =>
    cases n with
    | zero => simp at h
    | succ m => simpa using ih m (by simpa using h)

theorem listGetD_of_length_le (l : List (Option Tower)) (n : ℕ)
    (h : l.length ≤ n) : l.getD n none = none := by
  induction l generalizing n with
  | nil => rfl
  | cons a tl ih =>
    cases n with
    | zero => simp at h
    | succ m => simpa using ih m (by simpa using h)

theorem countSome_set (l : List (Option Tower)) (n : ℕ) (v : Option Tower)
    (hn : n < l.length) :
    ((l.set n v).filter fun c => c.isSome).length
        + (if (l.getD n none).isSome then 1 else 0)
      = (l.filter fun c => c.isSome).length + (if v.isSome then 1 else 0) := by
  induction l generalizing n with
  | nil => simp at hn
  | cons a tl ih =>
    cases n with
    | zero =>
      cases a <;> cases v <;> simp [List.filter]
    | succ m =>
      have hm : m < tl.length := by simpa using hn
      have h2 := ih m hm
      simp only [List.getD, List.get?_eq_getElem?] at h2 ⊢
      cases a <;> simp [List.filter] <;> omega

/-! ### Facts about cell reads and writes -/

theorem cellGet_some_bounds {cells : List (Option Tower)} {idx : ℤ} {t : Tower}
    (h : cellGet cells idx = some t) : 0 ≤ idx ∧ idx.toNat < cells.length := by
  by_cases h0 : idx < 0
  · simp [cellGet, h0] at h
  · refine ⟨by omega, ?_⟩
    by_cases hlen : cells.length ≤ idx.toNat
    · rw [cellGet, if_neg h0, listGetD_of_length_le _ _ hlen] at h
      exact absurd h (by simp)
    · omega

theorem length_cellSet (cells : List (Option Tower)) (idx : ℤ) (v : Option Tower) :
    (cellSet cells idx v).length = cells.length := by
  unfold cellSet
  split <;> simp

theorem cellGet_cellSet_self {cells : List (Option Tower)} {idx : ℤ}
    (v : Option Tower) (h0 : 0 ≤ idx) (hlen : idx.toNat < cells.length) :
    cellGet (cellSet cells idx v) idx = v := by
  rw [cellGet, cellSet, if_neg (by omega), if_neg (by omega)]
  exact listGetD_set_self _ _ _ hlen

theorem cellGet_cellSet_none_self (cells : List (Option Tower)) (idx : ℤ) :
    cellGet (cellSet cells idx none) idx = none := by
  by_cases h0 : idx < 0
  · simp [cellGet, h0]
  · by_cases hlen : idx.toNat < cells.length
    · exact cellGet_cellSet_self none (by omega) hlen
    · rw [cellSet, if_neg h0, listSet_of_length_le _ _ _ (by omega), cellGet,
        if_neg h0, listGetD_of_length_le _ _ (by omega)]

theorem cellGet_cellSet_ne {idx idx' : ℤ} (cells : List (Option Tower))
    (v : Option Tower) (h : idx ≠ idx') :
    cellGet (cellSet cells idx v) idx' = cellGet cells idx' := by
  by_cases h0 : idx < 0
  · simp [cellSet, h0]
  · by_cases h0' : idx' < 0
    · simp [cellGet, h0']
    · rw [cellGet, cellSet, if_neg h0, if_neg h0', cellGet, if_neg h0']
      exact listGetD_set_ne _ _ _ _ (by omega)

/-! ### The adjacency scan -/

theorem getAdjacentCells_eq_filter (g : Grid) (col row : ℤ) :
    getAdjacentCells g col row =
      ([(col - 1, row), (col + 1, row), (col, row - 1), (col, row + 1)]).filter
        fun p => decide (0 ≤ p.1 ∧ p.1 < (g.cols : ℤ) ∧ 0 ≤ p.2 ∧ p.2 < (g.rows : ℤ)) := by
  simp only [getAdjacentCells, adjacentOffsets, List.foldl_cons, List.foldl_nil,
    List.filter_cons, List.filter_nil, decide_eq_true_eq, sub_eq_add_neg, add_zero]
  split_ifs <;> simp_all

theorem mem_getAdjacentCells {g : Grid} {col row : ℤ} {p : ℤ × ℤ}
    (h : p ∈ getAdjacentCells g col row) :
    (p = (col - 1, row) ∨ p = (col + 1, row) ∨ p = (col, row - 1) ∨ p = (col, row + 1))
      ∧ 0 ≤ p.1 ∧ p.1 < (g.cols : ℤ) ∧ 0 ≤ p.2 ∧ p.2 < (g.rows : ℤ) := by
  rw [getAdjacentCells_eq_filter] at h
  have h2 := List.of_mem_filter h
  have h1 := List.mem_of_mem_filter h
  simp only [decide_eq_true_eq] at h2
  simp only [List.mem_cons, List.not_mem_nil, or_false] at h1
  exact ⟨h1, h2⟩

theorem getIndex_ne_of_adjacent {g : Grid} {col row : ℤ} {p : ℤ × ℤ}
    (h : p ∈ getAdjacentCells g col row) :
    getIndex g p.1 p.2 ≠ getIndex g col row := by
  obtain ⟨hcase, hb1, hb2, hb3, hb4⟩ := mem_getAdjacentCells h
  have hcols : 0 < (g.cols : ℤ) := by omega
  rcases hcase with h | h | h | h <;> subst h <;> simp only [getIndex] <;> intro he
  · omega
  · omega
  · have : (row - 1) * (g.cols : ℤ) = row * (g.cols : ℤ) - (g.cols : ℤ) := by ring
    omega
  · have : (row + 1) * (g.cols : ℤ) = row * (g.cols : ℤ) + (g.cols : ℤ) := by ring
    omega

theorem getIndex_nonneg {g : Grid} {col row : ℤ} (h0c : 0 ≤ col) (h0r : 0 ≤ row) :
    0 ≤ getIndex g col row := by
  have : 0 ≤ row * (g.cols : ℤ) := mul_nonneg h0r (by positivity)
  simp only [getIndex]
  omega

theorem getIndex_lt {g : Grid} {col row : ℤ} (h0c : 0 ≤ col) (hc : col < (g.cols : ℤ))
    (h0r : 0 ≤ row) (hr : row < (g.rows : ℤ)) :
    getIndex g col row < (g.cols : ℤ) * (g.rows : ℤ) := by
  have h1 : row * (g.cols : ℤ) + col < (row + 1) * (g.cols : ℤ) := by nlinarith
  have h2 : (row + 1) * (g.cols : ℤ) ≤ (g.rows : ℤ) * (g.cols : ℤ) := by nlinarith
  simp only [getIndex]
  nlinarith

/-! ### The single merge step -/

theorem mergeStep_cells {g : Grid} {col1 row1 col2 row2 : ℤ} {t1 t2 : Tower}
    (h1 : cellGet g.cells (getIndex g col1 row1) = some t1)
    (h2 : cellGet g.cells (getIndex g col2 row2) = some t2) :
    (mergeStep g col1 row1 col2 row2).1.cells =
      cellSet
        (cellSet (cellSet g.cells (getIndex g col1 row1) none)
          (getIndex g col2 row2) none)
        (getIndex g col1 row1)
        (some { mkTower t1.type (t1.tier + 1) with col := col1, row := row1 }) := by
  rw [mergeStep, h1, h2]

theorem mergeStep_events {g : Grid} {col1 row1 col2 row2 : ℤ} {t1 t2 : Tower}
    (h1 : cellGet g.cells (getIndex g col1 row1) = some t1)
    (h2 : cellGet g.cells (getIndex g col2 row2) = some t2) :
    (mergeStep g col1 row1 col2 row2).2 = [getMergeReward t1.tier] := by
  rw [mergeStep, h1, h2]

theorem mergeStep_cols {g : Grid} (col1 row1 col2 row2 : ℤ) :
    (mergeStep g col1 row1 col2 row2).1.cols = g.cols := by
  rw [mergeStep]
  split <;> rfl

theorem mergeStep_rows {g : Grid} (col1 row1 col2 row2 : ℤ) :
    (mergeStep g col1 row1 col2 row2).1.rows = g.rows := by
  rw [mergeStep]
  split <;> rfl

theorem mergeStep_length {g : Grid} {col1 row1 col2 row2 : ℤ} {t1 t2 : Tower}
    (h1 : cellGet g.cells (getIndex g col1 row1) = some t1)
    (h2 : cellGet g.cells (getIndex g col2 row2) = some t2) :
    (mergeStep g col1 row1 col2 row2).1.cells.length = g.cells.length := by
  rw [mergeStep_cells h1 h2]
  simp [length_cellSet]

theorem mergeStep_anchor {g : Grid} {col1 row1 col2 row2 : ℤ} {t1 t2 : Tower}
    (h1 : cellGet g.cells (getIndex g col1 row1) = some t1)
    (h2 : cellGet g.cells (getIndex g col2 row2) = some t2) :
    cellGet (mergeStep g col1 row1 col2 row2).1.cells (getIndex g col1 row1) =
      some { mkTower t1.type (t1.tier + 1) with col := col1, row := row1 } := by
  obtain ⟨hge, hlt⟩ := cellGet_some_bounds h1
  rw [mergeStep_cells h1 h2]
  refine cellGet_cellSet_self _ hge ?_
  rw [length_cellSet, length_cellSet]
  exact hlt

theorem mergeStep_partner {g : Grid} {col1 row1 col2 row2 : ℤ} {t1 t2 : Tower}
    (h1 : cellGet g.cells (getIndex g col1 row1) = some t1)
    (h2 : cellGet g.cells (getIndex g col2 row2) = some t2)
    (hne : getIndex g col2 row2 ≠ getIndex g col1 row1) :
    cellGet (mergeStep g col1 row1 col2 row2).1.cells (getIndex g col2 row2) = none := by
  rw [mergeStep_cells h1 h2, cellGet_cellSet_ne _ _ (Ne.symm hne)]
  exact cellGet_cellSet_none_self _ _

theorem mergeStep_other {g : Grid} {col1 row1 col2 row2 : ℤ} {j : ℤ} {t1 t2 : Tower}
    (h1 : cellGet g.cells (getIndex g col1 row1) = some t1)
    (h2 : cellGet g.cells (getIndex g col2 row2) = some t2)
    (hja : j ≠ getIndex g col1 row1) (hjb : j ≠ getIndex g col2 row2) :
    cellGet (mergeStep g col1 row1 col2 row2).1.cells j = cellGet g.cells j := by
  rw [mergeStep_cells h1 h2, cellGet_cellSet_ne _ _ (Ne.symm hja),
    cellGet_cellSet_ne _ _ (Ne.symm hjb), cellGet_cellSet_ne _ _ (Ne.symm hja)]

theorem mkTower_tier (ty : TowerType) (tier : ℕ) :
    (mkTower ty tier).tier = max 1 (min tier 5) := rfl

theorem mkTower_type (ty : TowerType) (tier : ℕ) :
    (mkTower ty tier).type = ty := rfl

theorem canMergeWith_some {t : Tower} {o : Option Tower}
    (h : canMergeWith t o = true) :
    ∃ n, o = some n ∧ t.type = n.type ∧ t.tier = n.tier ∧ t.tier < 5 := by
  cases o with
  | none => simp [canMergeWith] at h
  | some n =>
    simp only [canMergeWith, Bool.and_eq_true, beq_iff_eq, decide_eq_true_eq] at h
    exact ⟨n, rfl, h.1.1, h.1.2, h.2⟩

theorem getIndex_congr {g g' : Grid} (h : g'.cols = g.cols) (col row : ℤ) :
    getIndex g' col row = getIndex g col row := by
  simp [getIndex, h]

theorem cellGet_eq_getD {cells : List (Option Tower)} {idx : ℤ} (h : 0 ≤ idx) :
    cellGet cells idx = cells.getD idx.toNat none := by
  rw [cellGet, if_neg (by omega)]

theorem countSome_cellSet {cells : List (Option Tower)} {idx : ℤ} (v : Option Tower)
    (h0 : 0 ≤ idx) (hlen : idx.toNat < cells.length) :
    ((cellSet cells idx v).filter fun c => c.isSome).length
        + (if (cellGet cells idx).isSome then 1 else 0)
      = (cells.filter fun c => c.isSome).length + (if v.isSome then 1 else 0) := by
  rw [cellSet, if_neg (by omega), cellGet_eq_getD h0]
  exact countSome_set _ _ _ hlen

theorem countSome_clear_clear_set {cells : List (Option Tower)} {idxA idxB : ℤ}
    {t1 t2 : Tower} (v : Option Tower) (hv : v.isSome = true)
    (h1 : cellGet cells idxA = some t1) (h2 : cellGet cells idxB = some t2)
    (hne : idxB ≠ idxA) :
    ((cellSet (cellSet (cellSet cells idxA none) idxB none) idxA v).filter
        fun c => c.isSome).length + 1
      = (cells.filter fun c => c.isSome).length := by
  obtain ⟨hA0, hAlt⟩ := cellGet_some_bounds h1
  obtain ⟨hB0, hBlt⟩ := cellGet_some_bounds h2
  have e1 := @countSome_cellSet cells idxA none hA0 hAlt
  have hg1len : (cellSet cells idxA none).length = cells.length := length_cellSet _ _ _
  have hg1B : cellGet (cellSet cells idxA none) idxB = some t2 := by
    rw [cellGet_cellSet_ne _ _ (fun he => hne he.symm)]
    exact h2
  have e2 := @countSome_cellSet (cellSet cells idxA none) idxB none hB0 (by omega)
  have hg2A : cellGet (cellSet (cellSet cells idxA none) idxB none) idxA = none := by
    rw [cellGet_cellSet_ne _ _ hne]
    exact cellGet_cellSet_none_self _ _
  have hg2len : (cellSet (cellSet cells idxA none) idxB none).length = cells.length := by
    rw [length_cellSet, length_cellSet]
  have e3 := @countSome_cellSet (cellSet (cellSet cells idxA none) idxB none) idxA
    v hA0 (by omega)
  rw [h1] at e1
  rw [hg1B] at e2
  rw [hg2A, hv] at e3
  simp at e1 e2 e3
  omega

theorem mergeStep_count {g : Grid} {col1 row1 col2 row2 : ℤ} {t1 t2 : Tower}
    (h1 : cellGet g.cells (getIndex g col1 row1) = some t1)
    (h2 : cellGet g.cells (getIndex g col2 row2) = some t2)
    (hne : getIndex g col2 row2 ≠ getIndex g col1 row1) :
    getTowerCount (mergeStep g col1 row1 col2 row2).1 + 1 = getTowerCount g := by
  rw [getTowerCount, mergeStep_cells h1 h2, getTowerCount]
  exact countSome_clear_clear_set _ rfl h1 h2 hne

/-! ### The merge cascade -/

theorem checkMergeF_dims (fuel : ℕ) :
    ∀ g col row, (checkMergeF fuel g col row).1.cols = g.cols ∧
      (checkMergeF fuel g col row).1.rows = g.rows := by
  induction fuel with
  | zero => intro g col row; exact ⟨rfl, rfl⟩
  | succ n ih =>
    intro g col row
    rw [checkMergeF]
    split
    · exact ⟨rfl, rfl⟩
    · split
      · exact ⟨rfl, rfl⟩
      · split
        · exact ⟨rfl, rfl⟩
        · split
          · refine ⟨?_, ?_⟩
            · exact (ih _ col row).1.trans (mergeStep_cols _ _ _ _)
            · exact (ih _ col row).2.trans (mergeStep_rows _ _ _ _)
          · exact ⟨rfl, rfl⟩

theorem findPartner_mem_and_partner {g : Grid} {t : Tower} {col row : ℤ} {c : ℤ × ℤ}
    (hFp : findPartner g t (getAdjacentCells g col row) = some c) :
    c ∈ getAdjacentCells g col row ∧
      ∃ nb, cellGet g.cells (getIndex g c.1 c.2) = some nb ∧
        t.type = nb.type ∧ t.tier = nb.tier ∧ t.tier < 5 := by
  rw [findPartner] at hFp
  have hmem := List.mem_of_find?_eq_some hFp
  have hpred := List.find?_some hFp
  obtain ⟨nb, hB, h⟩ := canMergeWith_some hpred
  exact ⟨hmem, nb, hB, h⟩

theorem checkMergeF_merge_branch (fuel : ℕ) {g : Grid} {col row : ℤ} {t nb : Tower}
    {c : ℤ × ℤ}
    (hA : cellGet g.cells (getIndex g col row) = some t)
    (h5 : ¬ 5 ≤ t.tier)
    (hFp : findPartner g t (getAdjacentCells g col row) = some c)
    (hB : cellGet g.cells (getIndex g c.1 c.2) = some nb) :
    checkMergeF (fuel + 1) g col row =
      ((checkMergeF fuel (mergeStep g col row c.1 c.2).1 col row).1,
        (mergeStep g col row c.1 c.2).2
          ++ (checkMergeF fuel (mergeStep g col row c.1 c.2).1 col row).2.1,
        true) := by
  simp only [checkMergeF, hA, h5, hFp, hB, if_false]

theorem checkMergeF_none_preserved (fuel : ℕ) :
    ∀ g col row j, j ≠ getIndex g col row → cellGet g.cells j = none →
      cellGet (checkMergeF fuel g col row).1.cells j = none := by
  induction fuel with
  | zero => intro g col row j _ hnone; exact hnone
  | succ n ih =>
    intro g col row j hne hnone
    rcases hA : cellGet g.cells (getIndex g col row) with _ | t
    · simpa [checkMergeF, hA] using hnone
    · by_cases h5 : 5 ≤ t.tier
      · simpa [checkMergeF, hA, h5] using hnone
      · rcases hFp : findPartner g t (getAdjacentCells g col row) with _ | c
        · simpa [checkMergeF, hA, h5, hFp] using hnone
        · obtain ⟨hmem, nb, hB, -, -, -⟩ := findPartner_mem_and_partner hFp
          have hneAB := getIndex_ne_of_adjacent hmem
          simp only [checkMergeF, hA, h5, hFp, hB, if_false]
          apply ih
          · rw [getIndex_congr (mergeStep_cols _ _ _ _)]
            exact hne
          · by_cases hjB : j = getIndex g c.1 c.2
            · rw [hjB]
              exact mergeStep_partner hA hB hneAB
            · rw [mergeStep_other hA hB hne hjB]
              exact hnone

theorem checkMergeF_count (fuel : ℕ) :
    ∀ g col row,
      getTowerCount (checkMergeF fuel g col row).1
          + (checkMergeF fuel g col row).2.1.length
        = getTowerCount g := by
  induction fuel with
  | zero => intro g col row; rfl
  | succ n ih =>
    intro g col row
    rcases hA : cellGet g.cells (getIndex g col row) with _ | t
    · simp [checkMergeF, hA]
    · by_cases h5 : 5 ≤ t.tier
      · simp [checkMergeF, hA, h5]
      · rcases hFp : findPartner g t (getAdjacentCells g col row) with _ | c
        · simp [checkMergeF, hA, h5, hFp]
        · obtain ⟨hmem, nb, hB, -, -, -⟩ := findPartner_mem_and_partner hFp
          have hneAB := getIndex_ne_of_adjacent hmem
          have hstep := mergeStep_count hA hB hneAB
          have hrec := ih (mergeStep g col row c.1 c.2).1 col row
          simp only [checkMergeF, hA, h5, hFp, hB, if_false,
            mergeStep_events hA hB, List.length_append, List.length_cons,
            List.length_nil]
          omega

theorem checkMergeF_len_le (fuel : ℕ) :
    ∀ g col row t, cellGet g.cells (getIndex g col row) = some t →
      (checkMergeF fuel g col row).2.1.length ≤ 5 - t.tier := by
  induction fuel with
  | zero => intro g col row t _; simp [checkMergeF]
  | succ n ih =>
    intro g col row t hA
    by_cases h5 : 5 ≤ t.tier
    · simp [checkMergeF, hA, h5]
    · rcases hFp : findPartner g t (getAdjacentCells g col row) with _ | c
      · simp [checkMergeF, hA, h5, hFp]
      · obtain ⟨hmem, nb, hB, -, -, -⟩ := findPartner_mem_and_partner hFp
        have hanchor := mergeStep_anchor hA hB
        rw [← @getIndex_congr g (mergeStep g col row c.1 c.2).1
          (mergeStep_cols _ _ _ _) col row] at hanchor
        have hrec := ih (mergeStep g col row c.1 c.2).1 col row _ hanchor
        have htier :
            ({ mkTower t.type (t.tier + 1) with col := col, row := row } : Tower).tier
              = t.tier + 1 := by
          simp only [mkTower_tier]
          omega
        rw [htier] at hrec
        simp only [checkMergeF, hA, h5, hFp, hB, if_false, mergeStep_events hA hB,
          List.length_append, List.length_cons, List.length_nil]
        omega

theorem checkMergeF_succ_stable (fuel : ℕ) :
    ∀ g col row,
      (∀ t, cellGet g.cells (getIndex g col row) = some t → 5 - t.tier ≤ fuel) →
      checkMergeF (fuel + 1) g col row = checkMergeF fuel g col row := by
  induction fuel with
  | zero =>
    intro g col row hcond
    rcases hA : cellGet g.cells (getIndex g col row) with _ | t
    · simp [checkMergeF, hA]
    · have h5 : 5 ≤ t.tier := by have := hcond t hA; omega
      simp [checkMergeF, hA, h5]
  | succ n ih =>
    intro g col row hcond
    rcases hA : cellGet g.cells (getIndex g col row) with _ | t
    · simp [checkMergeF, hA]
    · by_cases h5 : 5 ≤ t.tier
      · simp [checkMergeF, hA, h5]
      · rcases hFp : findPartner g t (getAdjacentCells g col row) with _ | c
        · simp [checkMergeF, hA, h5, hFp]
        · obtain ⟨hmem, nb, hB, -, -, -⟩ := findPartner_mem_and_partner hFp
          have hanchor := mergeStep_anchor hA hB
          rw [← @getIndex_congr g (mergeStep g col row c.1 c.2).1
            (mergeStep_cols _ _ _ _) col row] at hanchor
          have htier :
              ({ mkTower t.type (t.tier + 1) with col := col, row := row } : Tower).tier
                = t.tier + 1 := by
            simp only [mkTower_tier]
            omega
          have hrec := ih (mergeStep g col row c.1 c.2).1 col row ?_
          · rw [checkMergeF_merge_branch (n + 1) hA h5 hFp hB,
              checkMergeF_merge_branch n hA h5 hFp hB, hrec]
          · intro t' ht'
            rw [hanchor] at ht'
            have := hcond t hA
            cases ht'
            rw [htier]
            omega

theorem checkMergeF_add_stable (m : ℕ) (k : ℕ) :
    ∀ g col row,
      (∀ t, cellGet g.cells (getIndex g col row) = some t → 5 - t.tier ≤ m) →
      checkMergeF (m + k) g col row = checkMergeF m g col row := by
  induction k with
  | zero => intro g col row _; rfl
  | succ k ih =>
    intro g col row hcond
    have h1 : m + (k + 1) = (m + k) + 1 := rfl
    rw [h1, checkMergeF_succ_stable (m + k) g col row
      (fun t ht => le_trans (hcond t ht) (by omega))]
    exact ih g col row hcond

theorem checkMergeF_eq_checkMerge {fuel : ℕ} {g : Grid} {col row : ℤ} {t : Tower}
    (hA : cellGet g.cells (getIndex g col row) = some t)
    (hf : 5 - t.tier ≤ fuel) :
    checkMergeF fuel g col row = checkMerge g col row := by
  have hcond : ∀ t', cellGet g.cells (getIndex g col row) = some t' →
      5 - t'.tier ≤ 5 - t.tier := by
    intro t' ht'
    rw [hA] at ht'
    cases ht'
    omega
  have e1 := checkMergeF_add_stable (5 - t.tier) (fuel - (5 - t.tier)) g col row hcond
  have e2 := checkMergeF_add_stable (5 - t.tier) (5 - (5 - t.tier)) g col row hcond
  rw [show 5 - t.tier + (fuel - (5 - t.tier)) = fuel by omega] at e1
  rw [show 5 - t.tier + (5 - (5 - t.tier)) = 5 by omega] at e2
  rw [checkMerge, e1, e2]

theorem checkMergeF_anchor_none (fuel : ℕ) {g : Grid} {col row : ℤ}
    (hA : cellGet g.cells (getIndex g col row) = none) :
    checkMergeF fuel g col row = (g, [], false) := by
  cases fuel with
  | zero => rfl
  | succ n => simp [checkMergeF, hA]

theorem checkMergeF_max_tier (fuel : ℕ) {g : Grid} {col row : ℤ} {t : Tower}
    (hA : cellGet g.cells (getIndex g col row) = some t) (h5 : 5 ≤ t.tier) :
    checkMergeF fuel g col row = (g, [], false) := by
  cases fuel with
  | zero => rfl
  | succ n => simp [checkMergeF, hA, h5]

theorem checkMergeF_no_partner (fuel : ℕ) {g : Grid} {col row : ℤ} {t : Tower}
    (hA : cellGet g.cells (getIndex g col row) = some t) (h5 : ¬ 5 ≤ t.tier)
    (hFp : findPartner g t (getAdjacentCells g col row) = none) :
    checkMergeF fuel g col row = (g, [], false) := by
  cases fuel with
  | zero => rfl
  | succ n => simp [checkMergeF, hA, h5, hFp]

theorem list_find?_congr_mem {α : Type} {p q : α → Bool} :
    ∀ l : List α, (∀ x ∈ l, p x = q x) → l.find? p = l.find? q := by
  intro l
  induction l with
  | nil => intro _; rfl
  | cons a tl ih =>
    intro h
    have ha := h a (by simp)
    rw [List.find?_cons, List.find?_cons, ha]
    split
    · rfl
    · exact ih fun x hx => h x (by simp [hx])

/-! ### The claims -/

/-- C1: on a grid holding a tier-1 tower at (0,0) and a tier-2 tower of the
same type at (2,0), `placeTower(1,0)` with a second tier-1 tower of that type
returns true and leaves exactly one tower on those cells: a tier-3 tower of
the same type at (1,0), with (0,0) and (2,0) empty; exactly two coin-award
events are emitted during that call, in order 10 then 20. -/
theorem chain_merge_scenario :
    (placeTower
        (placeTower (placeTower (mkGrid 5 5) 0 0 (some (mkTower .fire 1))).1
          2 0 (some (mkTower .fire 2))).1
        1 0 (some (mkTower .fire 1))).2.2 = true ∧
      (placeTower
          (placeTower (placeTower (mkGrid 5 5) 0 0 (some (mkTower .fire 1))).1
            2 0 (some (mkTower .fire 2))).1
          1 0 (some (mkTower .fire 1))).2.1 = [10, 20] ∧
      (getTower
            (placeTower
                (placeTower (placeTower (mkGrid 5 5) 0 0 (some (mkTower .fire 1))).1
                  2 0 (some (mkTower .fire 2))).1
                1 0 (some (mkTower .fire 1))).1
            1 0).map (fun t => (t.type, t.tier)) = some (.fire, 3) ∧
      getTower
          (placeTower
              (placeTower (placeTower (mkGrid 5 5) 0 0 (some (mkTower .fire 1))).1
                2 0 (some (mkTower .fire 2))).1
              1 0 (some (mkTower .fire 1))).1
          0 0 = none ∧
      getTower
          (placeTower
              (placeTower (placeTower (mkGrid 5 5) 0 0 (some (mkTower .fire 1))).1
                2 0 (some (mkTower .fire 2))).1
              1 0 (some (mkTower .fire 1))).1
          2 0 = none ∧
      getTowerCount
          (placeTower
              (placeTower (placeTower (mkGrid 5 5) 0 0 (some (mkTower .fire 1))).1
                2 0 (some (mkTower .fire 2))).1
              1 0 (some (mkTower .fire 1))).1
        = 1 := by
  decide

/-- C2: whenever a merge step fires for a tower of type T and tier k
(1 ≤ k < 5) at anchor (col,row) with adjacent partner cell (col2,row2),
afterwards the anchor holds a tower of type T and tier k+1, the partner cell
is empty, and the coin-award hook receives exactly one event for the step,
carrying the raw unmultiplied amount k*10 (the coin-bonus multiplier lives
in `Game.addCoins`, outside the Grid). -/
theorem merge_step_postcondition (g : Grid) (col row col2 row2 : ℤ)
    (t1 t2 : Tower) (k : ℕ)
    (hadj : (col2, row2) ∈ getAdjacentCells g col row)
    (h1 : getTower g col row = some t1)
    (h2 : getTower g col2 row2 = some t2)
    (hk : t1.tier = k) (hk1 : 1 ≤ k) (hk5 : k < 5) :
    (∃ t', getTower (mergeStep g col row col2 row2).1 col row = some t' ∧
        t'.type = t1.type ∧ t'.tier = k + 1) ∧
      getTower (mergeStep g col row col2 row2).1 col2 row2 = none ∧
      (mergeStep g col row col2 row2).2 = [k * 10] := by
  rw [getTower] at h1 h2
  have hne : getIndex g col2 row2 ≠ getIndex g col row := getIndex_ne_of_adjacent hadj
  refine ⟨⟨{ mkTower t1.type (t1.tier + 1) with col := col, row := row }, ?_, ?_, ?_⟩,
    ?_, ?_⟩
  · rw [getTower, getIndex_congr (mergeStep_cols _ _ _ _)]
    exact mergeStep_anchor h1 h2
  · rfl
  · simp only [mkTower_tier]
    omega
  · rw [getTower, getIndex_congr (mergeStep_cols _ _ _ _)]
    exact mergeStep_partner h1 h2 hne
  · rw [mergeStep_events h1 h2, hk]
    rfl

/-- Witness for C2 at a concrete input: a 2 by 1 grid holding two tier-1 fire
towers, merging the pair anchored at (0,0) with partner (1,0). -/
theorem merge_step_postcondition_witness :
    ((1, 0) ∈ getAdjacentCells ⟨2, 1, [some (mkTower .fire 1), some (mkTower .fire 1)]⟩ 0 0
        ∧ getTower ⟨2, 1, [some (mkTower .fire 1), some (mkTower .fire 1)]⟩ 0 0
            = some (mkTower .fire 1)
        ∧ getTower ⟨2, 1, [some (mkTower .fire 1), some (mkTower .fire 1)]⟩ 1 0
            = some (mkTower .fire 1)
        ∧ (mkTower .fire 1).tier = 1 ∧ 1 ≤ 1 ∧ 1 < 5) ∧
      ((∃ t', getTower
            (mergeStep ⟨2, 1, [some (mkTower .fire 1), some (mkTower .fire 1)]⟩ 0 0 1 0).1
            0 0 = some t' ∧ t'.type = (mkTower .fire 1).type ∧ t'.tier = 1 + 1) ∧
        getTower
            (mergeStep ⟨2, 1, [some (mkTower .fire 1), some (mkTower .fire 1)]⟩ 0 0 1 0).1
            1 0 = none ∧
        (mergeStep ⟨2, 1, [some (mkTower .fire 1), some (mkTower .fire 1)]⟩ 0 0 1 0).2
          = [1 * 10]) :=
  ⟨⟨by decide, rfl, rfl, by decide, by decide, by decide⟩,
    merge_step_postcondition _ 0 0 1 0 _ _ 1 (by decide) rfl rfl (by decide)
      (by decide) (by decide)⟩

/-- C4 counterexample: on a 5 by 5 grid with a tower at cell (2,1) (linear
index 7), the out-of-range call `removeTower(7,0)` computes index 7, returns
that tower instead of the empty marker, and clears the in-range cell (2,1);
so the claim that every out-of-range `removeTower` returns empty and changes
no cell is false on the code. -/
theorem removeTower_oob_counterexample :
    (5 : ℤ) ≤ 7 ∧
      (removeTower
          { mkGrid 5 5 with
              cells := cellSet (mkGrid 5 5).cells 7 (some (mkTower .ice 1)) }
          7 0).1 ≠ none ∧
      getTower
          { mkGrid 5 5 with
              cells := cellSet (mkGrid 5 5).cells 7 (some (mkTower .ice 1)) }
          2 1 ≠ none ∧
      getTower
          (removeTower
              { mkGrid 5 5 with
                  cells := cellSet (mkGrid 5 5).cells 7 (some (mkTower .ice 1)) }
              7 0).2
          2 1 = none := by
  decide

/-- C4 amended: `removeTower` performs no bounds check; it clears and returns
the cell at linear index `row*cols + col` whenever that index falls in
`[0, cols*rows)`, so out-of-range coordinates that alias to an in-range index
mutate that cell.  Only when the computed index itself falls outside the cell
array does `removeTower` return the empty marker and leave every cell
unchanged. -/
theorem removeTower_index_oob (g : Grid) (col row : ℤ)
    (h : getIndex g col row < 0 ∨ (g.cells.length : ℤ) ≤ getIndex g col row) :
    removeTower g col row = (none, g) := by
  rcases h with h | h
  · simp [removeTower, cellGet, cellSet, h]
  · have h1 : cellGet g.cells (getIndex g col row) = none := by
      rw [cellGet_eq_getD (by omega)]
      exact listGetD_of_length_le _ _ (by omega)
    have h2 : cellSet g.cells (getIndex g col row) none = g.cells := by
      rw [cellSet, if_neg (by omega)]
      exact listSet_of_length_le _ _ _ (by omega)
    simp [removeTower, h1, h2]

/-- Witness for the amended C4 at a concrete input: column -1 on a 2 by 2
grid computes the negative index -1, so nothing is read or written. -/
theorem removeTower_index_oob_witness :
    (getIndex (mkGrid 2 2) (-1) 0 < 0 ∨
        ((mkGrid 2 2).cells.length : ℤ) ≤ getIndex (mkGrid 2 2) (-1) 0) ∧
      removeTower (mkGrid 2 2) (-1) 0 = (none, mkGrid 2 2) :=
  ⟨by decide, removeTower_index_oob _ _ _ (by decide)⟩

/-- C5: `placeTower` rejection is atomic: for out-of-range coordinates, and
for occupied target cells, it returns false and the grid (hence the original
occupant) is unchanged. -/
theorem placeTower_reject_atomic (g : Grid) (col row : ℤ) (tw : Option Tower)
    (h : (col < 0 ∨ (g.cols : ℤ) ≤ col ∨ row < 0 ∨ (g.rows : ℤ) ≤ row) ∨
        (∃ t0, getTower g col row = some t0)) :
    placeTower g col row tw = (g, [], false) := by
  by_cases hoob : col < 0 ∨ (g.cols : ℤ) ≤ col ∨ row < 0 ∨ (g.rows : ℤ) ≤ row
  · rw [placeTower, if_pos hoob]
  · rcases h with h | ⟨t0, hocc⟩
    · exact absurd h hoob
    · rw [getTower] at hocc
      rw [placeTower, if_neg hoob]
      simp only [hocc]

/-- Witness for C5 at concrete inputs: both the out-of-range case and the
occupied-cell case on small grids. -/
theorem placeTower_reject_atomic_witness :
    (((5 : ℤ) < 0 ∨ ((mkGrid 2 2).cols : ℤ) ≤ 5 ∨ (0 : ℤ) < 0 ∨
          ((mkGrid 2 2).rows : ℤ) ≤ 0) ∨
        (∃ t0, getTower (mkGrid 2 2) 5 0 = some t0)) ∧
      placeTower (mkGrid 2 2) 5 0 (some (mkTower .fire 1)) = (mkGrid 2 2, [], false) ∧
      (∃ t0, getTower (⟨1, 1, [some (mkTower .earth 3)]⟩ : Grid) 0 0 = some t0) ∧
      placeTower (⟨1, 1, [some (mkTower .earth 3)]⟩ : Grid) 0 0 (some (mkTower .fire 1))
        = (⟨1, 1, [some (mkTower .earth 3)]⟩, [], false) :=
  ⟨Or.inl (by decide),
    placeTower_reject_atomic _ 5 0 _ (Or.inl (by decide)),
    ⟨mkTower .earth 3, rfl⟩,
    placeTower_reject_atomic _ 0 0 _ (Or.inr ⟨mkTower .earth 3, rfl⟩)⟩

/-- C6: every merge cascade started by `checkMerge(col,row)` terminates: the
number of merge steps (one coin event per step) is bounded by 5 minus the
starting tower's tier, and the fuel-indexed recursion is stable — any fuel of
at least `5 - tier` yields the very same result, so the source's unbounded
recursion is realized. -/
theorem cascade_termination (g : Grid) (col row : ℤ) (t : Tower) (fuel : ℕ)
    (hA : getTower g col row = some t) (ht : 1 ≤ t.tier)
    (hf : 5 - t.tier ≤ fuel) :
    (checkMerge g col row).2.1.length ≤ 5 - t.tier ∧
      checkMergeF fuel g col row = checkMerge g col row := by
  rw [getTower] at hA
  exact ⟨checkMergeF_len_le 5 g col row t hA, checkMergeF_eq_checkMerge hA hf⟩

/-- Witness for C6 at a concrete input: a 2 by 1 grid with two tier-1 fire
towers, anchor (0,0), fuel 7. -/
theorem cascade_termination_witness :
    (getTower ⟨2, 1, [some (mkTower .fire 1), some (mkTower .fire 1)]⟩ 0 0
          = some (mkTower .fire 1)
        ∧ 1 ≤ (mkTower .fire 1).tier
        ∧ 5 - (mkTower .fire 1).tier ≤ 7) ∧
      ((checkMerge ⟨2, 1, [some (mkTower .fire 1), some (mkTower .fire 1)]⟩ 0 0).2.1.length
          ≤ 5 - (mkTower .fire 1).tier ∧
        checkMergeF 7 ⟨2, 1, [some (mkTower .fire 1), some (mkTower .fire 1)]⟩ 0 0
          = checkMerge ⟨2, 1, [some (mkTower .fire 1), some (mkTower .fire 1)]⟩ 0 0) :=
  ⟨⟨rfl, by decide, by decide⟩,
    cascade_termination _ 0 0 _ 7 rfl (by decide) (by decide)⟩

/-- C7: for every recognized tower type and every tier 1..5, the derived
stats equal `damage = floor(baseDamage * 1.5^(tier-1))`,
`range = floor(baseRange * (1 + 0.1*(tier-1)))` and
`fireRate = baseFireRate * (1 + 0.2*(tier-1))`, both at construction and
after an upgrade (which recomputes them at `tier+1`). -/
theorem stats_recomputation (ty : TowerType) (tier : ℕ)
    (h1 : 1 ≤ tier) (h5 : tier ≤ 5) :
    ((mkTower ty tier).damage
          = ⌊(TOWER_CONFIG ty).baseDamage * (3/2 : ℚ) ^ (tier - 1)⌋ ∧
        (mkTower ty tier).range
          = ⌊(TOWER_CONFIG ty).baseRange * (1 + ((tier - 1 : ℕ) : ℚ) * (1/10))⌋ ∧
        (mkTower ty tier).fireRate
          = (TOWER_CONFIG ty).baseFireRate * (1 + ((tier - 1 : ℕ) : ℚ) * (1/5))) ∧
      (tier < 5 →
        ((mkTower ty tier).upgrade.1.damage
            = ⌊(TOWER_CONFIG ty).baseDamage * (3/2 : ℚ) ^ (tier + 1 - 1)⌋ ∧
          (mkTower ty tier).upgrade.1.range
            = ⌊(TOWER_CONFIG ty).baseRange * (1 + ((tier + 1 - 1 : ℕ) : ℚ) * (1/10))⌋ ∧
          (mkTower ty tier).upgrade.1.fireRate
            = (TOWER_CONFIG ty).baseFireRate * (1 + ((tier + 1 - 1 : ℕ) : ℚ) * (1/5)))) := by
  have hclamp : max 1 (min tier 5) = tier := by omega
  have hdmg : ∀ k : ℕ, 1 ≤ k → statsDamage ty k
      = ⌊(TOWER_CONFIG ty).baseDamage * (3/2 : ℚ) ^ (k - 1)⌋ := by
    intro k hk
    rw [statsDamage, show (k : ℤ) - 1 = ((k - 1 : ℕ) : ℤ) by omega, zpow_natCast]
  have hrng : ∀ k : ℕ, 1 ≤ k → statsRange ty k
      = ⌊(TOWER_CONFIG ty).baseRange * (1 + ((k - 1 : ℕ) : ℚ) * (1/10))⌋ := by
    intro k hk
    rw [statsRange, show ((k : ℚ) - 1) = ((k - 1 : ℕ) : ℚ) by push_cast [hk]; ring]
  have hfr : ∀ k : ℕ, 1 ≤ k → statsFireRate ty k
      = (TOWER_CONFIG ty).baseFireRate * (1 + ((k - 1 : ℕ) : ℚ) * (1/5)) := by
    intro k hk
    rw [statsFireRate, show ((k : ℚ) - 1) = ((k - 1 : ℕ) : ℚ) by push_cast [hk]; ring]
  constructor
  · refine ⟨?_, ?_, ?_⟩
    · show statsDamage ty (max 1 (min tier 5)) = _
      rw [hclamp, hdmg tier h1]
    · show statsRange ty (max 1 (min tier 5)) = _
      rw [hclamp, hrng tier h1]
    · show statsFireRate ty (max 1 (min tier 5)) = _
      rw [hclamp, hfr tier h1]
  · intro hlt
    have hnot : ¬ 5 ≤ (mkTower ty tier).tier := by
      rw [mkTower_tier, hclamp]
      omega
    rw [Tower.upgrade, if_neg hnot]
    refine ⟨?_, ?_, ?_⟩
    · show statsDamage ty ((mkTower ty tier).tier + 1) = _
      rw [mkTower_tier, hclamp, hdmg (tier + 1) (by omega)]
    · show statsRange ty ((mkTower ty tier).tier + 1) = _
      rw [mkTower_tier, hclamp, hrng (tier + 1) (by omega)]
    · show statsFireRate ty ((mkTower ty tier).tier + 1) = _
      rw [mkTower_tier, hclamp, hfr (tier + 1) (by omega)]

/-- Witness for C7 at a concrete input: the fire tower at tier 3. -/
theorem stats_recomputation_witness :
    (1 ≤ 3 ∧ 3 ≤ 5) ∧
      (((mkTower .fire 3).damage
            = ⌊(TOWER_CONFIG .fire).baseDamage * (3/2 : ℚ) ^ (3 - 1)⌋ ∧
          (mkTower .fire 3).range
            = ⌊(TOWER_CONFIG .fire).baseRange * (1 + ((3 - 1 : ℕ) : ℚ) * (1/10))⌋ ∧
          (mkTower .fire 3).fireRate
            = (TOWER_CONFIG .fire).baseFireRate * (1 + ((3 - 1 : ℕ) : ℚ) * (1/5))) ∧
        (3 < 5 →
          ((mkTower .fire 3).upgrade.1.damage
              = ⌊(TOWER_CONFIG .fire).baseDamage * (3/2 : ℚ) ^ (3 + 1 - 1)⌋ ∧
            (mkTower .fire 3).upgrade.1.range
              = ⌊(TOWER_CONFIG .fire).baseRange * (1 + ((3 + 1 - 1 : ℕ) : ℚ) * (1/10))⌋ ∧
            (mkTower .fire 3).upgrade.1.fireRate
              = (TOWER_CONFIG .fire).baseFireRate * (1 + ((3 + 1 - 1 : ℕ) : ℚ) * (1/5))))) :=
  ⟨⟨by decide, by decide⟩, stats_recomputation .fire 3 (by decide) (by decide)⟩

/-- C8: serialization round trip: for every tower with a recognized type,
tier in 1..5 and any integer position, `fromJSON (toJSON t)` reproduces
type, tier, col and row exactly. -/
theorem json_round_trip (t : Tower) (h1 : 1 ≤ t.tier) (h5 : t.tier ≤ 5) :
    (Tower.fromJSON t.toJSON).type = t.type ∧
      (Tower.fromJSON t.toJSON).tier = t.tier ∧
      (Tower.fromJSON t.toJSON).col = t.col ∧
      (Tower.fromJSON t.toJSON).row = t.row := by
  have hclamp : max 1 (min t.tier 5) = t.tier := by omega
  refine ⟨rfl, ?_, rfl, rfl⟩
  show max 1 (min t.tier 5) = t.tier
  exact hclamp

/-- Witness for C8 at a concrete input: an earth tower of tier 4 placed at
(3,-2). -/
theorem json_round_trip_witness :
    (1 ≤ ({ mkTower .earth 4 with col := 3, row := -2 } : Tower).tier ∧
        ({ mkTower .earth 4 with col := 3, row := -2 } : Tower).tier ≤ 5) ∧
      ((Tower.fromJSON ({ mkTower .earth 4 with col := 3, row := -2 } : Tower).toJSON).type
            = ({ mkTower .earth 4 with col := 3, row := -2 } : Tower).type ∧
        (Tower.fromJSON ({ mkTower .earth 4 with col := 3, row := -2 } : Tower).toJSON).tier
            = ({ mkTower .earth 4 with col := 3, row := -2 } : Tower).tier ∧
        (Tower.fromJSON ({ mkTower .earth 4 with col := 3, row := -2 } : Tower).toJSON).col
            = ({ mkTower .earth 4 with col := 3, row := -2 } : Tower).col ∧
        (Tower.fromJSON ({ mkTower .earth 4 with col := 3, row := -2 } : Tower).toJSON).row
            = ({ mkTower .earth 4 with col := 3, row := -2 } : Tower).row) :=
  ⟨⟨by decide, by decide⟩, json_round_trip _ (by decide) (by decide)⟩

/-- C9: each merge step clears its two occupied source cells and stores one
merged tower, so it decreases the occupied-cell count by exactly one; hence a
successful placement that triggers N chain-merge steps (one coin event per
step) changes the tower count by 1 - N, stated additively as
`count_after + N = count_before + 1`. -/
theorem merge_count_invariant (g : Grid) (col row col2 row2 : ℤ) (t1 t2 : Tower)
    (hadj : (col2, row2) ∈ getAdjacentCells g col row)
    (h1 : getTower g col row = some t1) (h2 : getTower g col2 row2 = some t2)
    (g' : Grid) (pcol prow : ℤ) (tw : Tower)
    (hlen : g'.cells.length = g'.cols * g'.rows)
    (h0c : 0 ≤ pcol) (hc : pcol < (g'.cols : ℤ))
    (h0r : 0 ≤ prow) (hr : prow < (g'.rows : ℤ))
    (hempty : getTower g' pcol prow = none) :
    getTowerCount (mergeStep g col row col2 row2).1 + 1 = getTowerCount g ∧
      getTowerCount (placeTower g' pcol prow (some tw)).1
          + (placeTower g' pcol prow (some tw)).2.1.length
        = getTowerCount g' + 1 := by
  rw [getTower] at h1 h2
  constructor
  · exact mergeStep_count h1 h2 (getIndex_ne_of_adjacent hadj)
  · rw [getTower] at hempty
    have hoob : ¬ (pcol < 0 ∨ (g'.cols : ℤ) ≤ pcol ∨ prow < 0 ∨ (g'.rows : ℤ) ≤ prow) := by
      omega
    have hlenz : ((g'.cells.length : ℤ)) = (g'.cols : ℤ) * (g'.rows : ℤ) := by
      rw [hlen]
      push_cast
      ring
    have hidx0 : 0 ≤ getIndex g' pcol prow := getIndex_nonneg h0c h0r
    have hidxlt : (getIndex g' pcol prow).toNat < g'.cells.length := by
      have := getIndex_lt h0c hc h0r hr
      omega
    have hone := @countSome_cellSet g'.cells (getIndex g' pcol prow)
      (some { tw with col := pcol, row := prow }) hidx0 hidxlt
    rw [hempty] at hone
    simp at hone
    have hcasc := checkMergeF_count 5
      { g' with
          cells :=
            cellSet g'.cells (getIndex g' pcol prow)
              (some { tw with col := pcol, row := prow }) }
      pcol prow
    simp only [placeTower, if_neg hoob, hempty, Option.map_some']
    rw [checkMerge]
    simp only [getTowerCount] at hcasc ⊢
    omega

/-- Witness for C9 at concrete inputs: a merge step on a 2 by 1 grid of two
tier-1 fire towers, and a merge-free placement into an empty 1 by 1 grid. -/
theorem merge_count_invariant_witness :
    ((1, 0) ∈ getAdjacentCells ⟨2, 1, [some (mkTower .fire 1), some (mkTower .fire 1)]⟩ 0 0 ∧
        getTower ⟨2, 1, [some (mkTower .fire 1), some (mkTower .fire 1)]⟩ 0 0
          = some (mkTower .fire 1) ∧
        getTower ⟨2, 1, [some (mkTower .fire 1), some (mkTower .fire 1)]⟩ 1 0
          = some (mkTower .fire 1) ∧
        (mkGrid 1 1).cells.length = (mkGrid 1 1).cols * (mkGrid 1 1).rows ∧
        getTower (mkGrid 1 1) 0 0 = none) ∧
      (getTowerCount
            (mergeStep ⟨2, 1, [some (mkTower .fire 1), some (mkTower .fire 1)]⟩ 0 0 1 0).1
            + 1
          = getTowerCount ⟨2, 1, [some (mkTower .fire 1), some (mkTower .fire 1)]⟩ ∧
        getTowerCount (placeTower (mkGrid 1 1) 0 0 (some (mkTower .ice 2))).1
            + (placeTower (mkGrid 1 1) 0 0 (some (mkTower .ice 2))).2.1.length
          = getTowerCount (mkGrid 1 1) + 1) :=
  ⟨⟨by decide, rfl, rfl, by decide, rfl⟩,
    merge_count_invariant ⟨2, 1, [some (mkTower .fire 1), some (mkTower .fire 1)]⟩
      0 0 1 0 (mkTower .fire 1) (mkTower .fire 1) (by decide) rfl rfl
      (mkGrid 1 1) 0 0 (mkTower .ice 2) (by decide)
      (by decide) (by decide) (by decide) (by decide) rfl⟩

/-- C10: for every in-bounds empty cell, `placeTower(col, row, null)` returns
true while the cell remains empty afterwards — a true return does not imply
the target cell is occupied when the tower argument is null. -/
theorem placeTower_null_true_empty (g : Grid) (col row : ℤ)
    (h0c : 0 ≤ col) (hc : col < (g.cols : ℤ)) (h0r : 0 ≤ row) (hr : row < (g.rows : ℤ))
    (hempty : getTower g col row = none) :
    (placeTower g col row none).2.2 = true ∧
      getTower (placeTower g col row none).1 col row = none := by
  rw [getTower] at hempty
  have hoob : ¬ (col < 0 ∨ (g.cols : ℤ) ≤ col ∨ row < 0 ∨ (g.rows : ℤ) ≤ row) := by
    omega
  have hanchor : cellGet (cellSet g.cells (getIndex g col row) none)
      (getIndex g col row) = none := cellGet_cellSet_none_self _ _
  have hmerge := @checkMergeF_anchor_none 5
    { g with cells := cellSet g.cells (getIndex g col row) none } col row hanchor
  constructor
  · simp only [placeTower, if_neg hoob, hempty]
  · simp only [placeTower, if_neg hoob, hempty, Option.map_none']
    rw [getTower, checkMerge, hmerge]
    exact hanchor

/-- C3: merge trigger and deterministic partner selection for a successful
placement at an in-bounds empty cell.  First conjunct: the adjacency scan is
exactly the fixed order left, right, up, down filtered to bounds.  Second:
if some in-bounds orthogonal neighbor holds a tower of the same type and
tier with tier < 5, a merge occurs synchronously within that same
`placeTower` call (it returns true with a nonempty coin-event list).  Third:
the partner is the first compatible neighbor in scan order - its cell is
empty after the call and the first coin event carries the placed tier's
reward.  Fourth: if no neighbor is compatible, `checkMerge` returns false
and no cell beyond the placement target changes (the grid after placement is
returned untouched). -/
theorem merge_trigger_partner_order (g : Grid) (col row : ℤ) (t : Tower)
    (hlen : g.cells.length = g.cols * g.rows)
    (h0c : 0 ≤ col) (hc : col < (g.cols : ℤ))
    (h0r : 0 ≤ row) (hr : row < (g.rows : ℤ))
    (hempty : getTower g col row = none) :
    getAdjacentCells g col row =
        ([(col - 1, row), (col + 1, row), (col, row - 1), (col, row + 1)]).filter
          (fun p => decide (0 ≤ p.1 ∧ p.1 < (g.cols : ℤ) ∧ 0 ≤ p.2 ∧ p.2 < (g.rows : ℤ))) ∧
      ((∃ p ∈ getAdjacentCells g col row, ∃ n, getTower g p.1 p.2 = some n ∧
            n.type = t.type ∧ n.tier = t.tier ∧ t.tier < 5) →
        (placeTower g col row (some t)).2.2 = true ∧
          (placeTower g col row (some t)).2.1 ≠ []) ∧
      (∀ p, (getAdjacentCells g col row).find?
            (fun q => match getTower g q.1 q.2 with
              | some n => n.type == t.type && n.tier == t.tier && decide (t.tier < 5)
              | none => false) = some p →
        (placeTower g col row (some t)).2.1.head? = some (t.tier * 10) ∧
          getTower (placeTower g col row (some t)).1 p.1 p.2 = none) ∧
      ((getAdjacentCells g col row).find?
            (fun q => match getTower g q.1 q.2 with
              | some n => n.type == t.type && n.tier == t.tier && decide (t.tier < 5)
              | none => false) = none →
        checkMerge
            { g with
                cells := cellSet g.cells (getIndex g col row)
                  (some { t with col := col, row := row }) } col row
          = ({ g with
                cells := cellSet g.cells (getIndex g col row)
                  (some { t with col := col, row := row }) }, [], false) ∧
          placeTower g col row (some t)
            = ({ g with
                  cells := cellSet g.cells (getIndex g col row)
                    (some { t with col := col, row := row }) }, [], true)) := by
  have hempty' : cellGet g.cells (getIndex g col row) = none := hempty
  have hoob : ¬ (col < 0 ∨ (g.cols : ℤ) ≤ col ∨ row < 0 ∨ (g.rows : ℤ) ≤ row) := by
    omega
  have hlenz : ((g.cells.length : ℤ)) = (g.cols : ℤ) * (g.rows : ℤ) := by
    rw [hlen]
    push_cast
    ring
  have hidx0 : 0 ≤ getIndex g col row := getIndex_nonneg h0c h0r
  have hidxlt : (getIndex g col row).toNat < g.cells.length := by
    have := getIndex_lt h0c hc h0r hr
    omega
  have hanchor : cellGet
      (cellSet g.cells (getIndex g col row) (some { t with col := col, row := row }))
      (getIndex g col row) = some { t with col := col, row := row } :=
    cellGet_cellSet_self _ hidx0 hidxlt
  have hplace : placeTower g col row (some t)
      = ((checkMerge
            { g with
                cells := cellSet g.cells (getIndex g col row)
                  (some { t with col := col, row := row }) } col row).1,
          (checkMerge
            { g with
                cells := cellSet g.cells (getIndex g col row)
                  (some { t with col := col, row := row }) } col row).2.1,
          true) := by
    simp only [placeTower, if_neg hoob, hempty', Option.map_some']
  have hcell_eq : ∀ p : ℤ × ℤ, p ∈ getAdjacentCells g col row →
      cellGet
          (cellSet g.cells (getIndex g col row) (some { t with col := col, row := row }))
          (getIndex g p.1 p.2)
        = cellGet g.cells (getIndex g p.1 p.2) :=
    fun p hp => cellGet_cellSet_ne _ _ (Ne.symm (getIndex_ne_of_adjacent hp))
  have hfind_eq : findPartner
      { g with
          cells := cellSet g.cells (getIndex g col row)
            (some { t with col := col, row := row }) }
      { t with col := col, row := row } (getAdjacentCells g col row)
      = (getAdjacentCells g col row).find?
          (fun q => match getTower g q.1 q.2 with
            | some n => n.type == t.type && n.tier == t.tier && decide (t.tier < 5)
            | none => false) := by
    rw [findPartner]
    refine list_find?_congr_mem _ fun q hq => ?_
    have hq_eq : cellGet
        { g with
            cells := cellSet g.cells (getIndex g col row)
              (some { t with col := col, row := row }) }.cells
        (getIndex
          { g with
              cells := cellSet g.cells (getIndex g col row)
                (some { t with col := col, row := row }) } q.1 q.2)
        = getTower g q.1 q.2 := hcell_eq q hq
    rw [hq_eq]
    rcases hgt : getTower g q.1 q.2 with _ | n
    · rfl
    · show (t.type == n.type && t.tier == n.tier && decide (t.tier < 5))
        = (n.type == t.type && n.tier == t.tier && decide (t.tier < 5))
      rw [Bool.eq_iff_iff]
      simp only [Bool.and_eq_true, beq_iff_eq, decide_eq_true_eq]
      tauto
  refine ⟨getAdjacentCells_eq_filter g col row, ?_, ?_, ?_⟩
  · -- trigger: some compatible neighbor implies a merge fires in this call
    rintro ⟨p, hp, n, hgt, hty, hti, hlt5⟩
    have hcompat : (fun q : ℤ × ℤ => match getTower g q.1 q.2 with
        | some n => n.type == t.type && n.tier == t.tier && decide (t.tier < 5)
        | none => false) p = true := by
      simp only [hgt, hty, hti, hlt5, beq_iff_eq, decide_eq_true_eq]
      simp [hty, hti, hlt5]
    rcases hfp : (getAdjacentCells g col row).find?
        (fun q => match getTower g q.1 q.2 with
          | some n => n.type == t.type && n.tier == t.tier && decide (t.tier < 5)
          | none => false) with _ | p'
    · exact absurd hcompat (by simpa using List.find?_eq_none.mp hfp p hp)
    · have hFp1 : findPartner
          { g with
              cells := cellSet g.cells (getIndex g col row)
                (some { t with col := col, row := row }) }
          { t with col := col, row := row } (getAdjacentCells g col row)
          = some p' := by rw [hfind_eq, hfp]
      have hpred := List.find?_some hfp
      have hmem := List.mem_of_find?_eq_some hfp
      obtain ⟨nb, hB0, hB⟩ : ∃ nb, getTower g p'.1 p'.2 = some nb ∧ t.tier < 5 := by
        rcases hb : getTower g p'.1 p'.2 with _ | nb
        · rw [hb] at hpred
          simp at hpred
        · rw [hb] at hpred
          simp only [Bool.and_eq_true, beq_iff_eq, decide_eq_true_eq] at hpred
          exact ⟨nb, rfl, hpred.2⟩
      have hB' : cellGet
          (cellSet g.cells (getIndex g col row) (some { t with col := col, row := row }))
          (getIndex g p'.1 p'.2) = some nb := by
        rw [hcell_eq p' hmem]
        exact hB0
      have h5' : ¬ 5 ≤ ({ t with col := col, row := row } : Tower).tier := by
        show ¬ 5 ≤ t.tier
        omega
      have hbranch := @checkMergeF_merge_branch 4
        { g with
            cells := cellSet g.cells (getIndex g col row)
              (some { t with col := col, row := row }) }
        col row { t with col := col, row := row } nb p' hanchor h5' hFp1 hB'
      constructor
      · rw [hplace]
      · rw [hplace]
        show (checkMerge _ col row).2.1 ≠ []
        rw [show checkMerge
            { g with
                cells := cellSet g.cells (getIndex g col row)
                  (some { t with col := col, row := row }) } col row
          = checkMergeF (4 + 1)
              { g with
                  cells := cellSet g.cells (getIndex g col row)
                    (some { t with col := col, row := row }) } col row from rfl, hbranch]
        rw [mergeStep_events hanchor hB']
        simp
  · -- partner selection: first compatible in scan order; its cell ends empty
    intro p hfp
    have hFp1 : findPartner
        { g with
            cells := cellSet g.cells (getIndex g col row)
              (some { t with col := col, row := row }) }
        { t with col := col, row := row } (getAdjacentCells g col row)
        = some p := by rw [hfind_eq, hfp]
    have hpred := List.find?_some hfp
    have hmem := List.mem_of_find?_eq_some hfp
    obtain ⟨nb, hB0, hB⟩ : ∃ nb, getTower g p.1 p.2 = some nb ∧ t.tier < 5 := by
      rcases hb : getTower g p.1 p.2 with _ | nb
      · rw [hb] at hpred
        simp at hpred
      · rw [hb] at hpred
        simp only [Bool.and_eq_true, beq_iff_eq, decide_eq_true_eq] at hpred
        exact ⟨nb, rfl, hpred.2⟩
    have hB' : cellGet
        (cellSet g.cells (getIndex g col row) (some { t with col := col, row := row }))
        (getIndex g p.1 p.2) = some nb := by
      rw [hcell_eq p hmem]
      exact hB0
    have h5' : ¬ 5 ≤ ({ t with col := col, row := row } : Tower).tier := by
      show ¬ 5 ≤ t.tier
      omega
    have hbranch := @checkMergeF_merge_branch 4
      { g with
          cells := cellSet g.cells (getIndex g col row)
            (some { t with col := col, row := row }) }
      col row { t with col := col, row := row } nb p hanchor h5' hFp1 hB'
    have hcm : checkMerge
        { g with
            cells := cellSet g.cells (getIndex g col row)
              (some { t with col := col, row := row }) } col row
        = checkMergeF (4 + 1)
            { g with
                cells := cellSet g.cells (getIndex g col row)
                  (some { t with col := col, row := row }) } col row := rfl
    have hne_p : getIndex g p.1 p.2 ≠ getIndex g col row := getIndex_ne_of_adjacent hmem
    constructor
    · rw [hplace]
      show (checkMerge _ col row).2.1.head? = some (t.tier * 10)
      rw [hcm, hbranch]
      show ((mergeStep _ col row p.1 p.2).2 ++ _).head? = some (t.tier * 10)
      rw [mergeStep_events hanchor hB']
      rfl
    · rw [hplace]
      show getTower (checkMerge _ col row).1 p.1 p.2 = none
      rw [hcm, hbranch]
      show getTower (checkMergeF 4 (mergeStep _ col row p.1 p.2).1 col row).1 p.1 p.2 = none
      have hpn : cellGet
          (mergeStep
            { g with
                cells := cellSet g.cells (getIndex g col row)
                  (some { t with col := col, row := row }) } col row p.1 p.2).1.cells
          (getIndex g p.1 p.2) = none :=
        mergeStep_partner hanchor hB' hne_p
      have hfcols : (checkMergeF 4
          (mergeStep
            { g with
                cells := cellSet g.cells (getIndex g col row)
                  (some { t with col := col, row := row }) } col row p.1 p.2).1
          col row).1.cols = g.cols :=
        (checkMergeF_dims 4 _ col row).1.trans (mergeStep_cols _ _ _ _)
      rw [getTower, getIndex_congr hfcols]
      refine checkMergeF_none_preserved 4 _ col row _ ?_ hpn
      rw [getIndex_congr (mergeStep_cols _ _ _ _)]
      exact hne_p
  · -- no compatible neighbor: checkMerge is false and nothing else changes
    intro hfp
    have hFpn : findPartner
        { g with
            cells := cellSet g.cells (getIndex g col row)
              (some { t with col := col, row := row }) }
        { t with col := col, row := row } (getAdjacentCells g col row)
        = none := by rw [hfind_eq, hfp]
    have hfalse : checkMerge
        { g with
            cells := cellSet g.cells (getIndex g col row)
              (some { t with col := col, row := row }) } col row
        = ({ g with
              cells := cellSet g.cells (getIndex g col row)
                (some { t with col := col, row := row }) }, [], false) := by
      by_cases h5 : 5 ≤ ({ t with col := col, row := row } : Tower).tier
      · exact checkMergeF_max_tier 5 hanchor h5
      · exact checkMergeF_no_partner 5 hanchor h5 hFpn
    refine ⟨hfalse, ?_⟩
    rw [hplace, hfalse]

/-- Witness for C3 at a concrete input: a 3 by 1 grid with a tier-1 fire
tower at (0,0) and the placement cell (1,0) empty. -/
theorem merge_trigger_partner_order_witness :
    ((⟨3, 1, [some (mkTower .fire 1), none, none]⟩ : Grid).cells.length
          = (⟨3, 1, [some (mkTower .fire 1), none, none]⟩ : Grid).cols
              * (⟨3, 1, [some (mkTower .fire 1), none, none]⟩ : Grid).rows ∧
        (0 : ℤ) ≤ 1 ∧ (1 : ℤ) < ((⟨3, 1, [some (mkTower .fire 1), none, none]⟩ : Grid).cols : ℤ) ∧
        (0 : ℤ) ≤ 0 ∧ (0 : ℤ) < ((⟨3, 1, [some (mkTower .fire 1), none, none]⟩ : Grid).rows : ℤ) ∧
        getTower ⟨3, 1, [some (mkTower .fire 1), none, none]⟩ 1 0 = none) ∧
      (getAdjacentCells ⟨3, 1, [some (mkTower .fire 1), none, none]⟩ 1 0 =
          ([((1 : ℤ) - 1, (0 : ℤ)), (1 + 1, 0), (1, 0 - 1), (1, 0 + 1)]).filter
            (fun p => decide (0 ≤ p.1 ∧
              p.1 < ((⟨3, 1, [some (mkTower .fire 1), none, none]⟩ : Grid).cols : ℤ) ∧
              0 ≤ p.2 ∧
              p.2 < ((⟨3, 1, [some (mkTower .fire 1), none, none]⟩ : Grid).rows : ℤ))) ∧
        ((∃ p ∈ getAdjacentCells ⟨3, 1, [some (mkTower .fire 1), none, none]⟩ 1 0,
            ∃ n, getTower ⟨3, 1, [some (mkTower .fire 1), none, none]⟩ p.1 p.2 = some n ∧
              n.type = (mkTower .fire 1).type ∧ n.tier = (mkTower .fire 1).tier ∧
              (mkTower .fire 1).tier < 5) →
          (placeTower ⟨3, 1, [some (mkTower .fire 1), none, none]⟩ 1 0
              (some (mkTower .fire 1))).2.2 = true ∧
            (placeTower ⟨3, 1, [some (mkTower .fire 1), none, none]⟩ 1 0
              (some (mkTower .fire 1))).2.1 ≠ []) ∧
        (∀ p, (getAdjacentCells ⟨3, 1, [some (mkTower .fire 1), none, none]⟩ 1 0).find?
              (fun q => match getTower ⟨3, 1, [some (mkTower .fire 1), none, none]⟩ q.1 q.2 with
                | some n => n.type == (mkTower .fire 1).type &&
                    n.tier == (mkTower .fire 1).tier && decide ((mkTower .fire 1).tier < 5)
                | none => false) = some p →
          (placeTower ⟨3, 1, [some (mkTower .fire 1), none, none]⟩ 1 0
              (some (mkTower .fire 1))).2.1.head? = some ((mkTower .fire 1).tier * 10) ∧
            getTower (placeTower ⟨3, 1, [some (mkTower .fire 1), none, none]⟩ 1 0
              (some (mkTower .fire 1))).1 p.1 p.2 = none) ∧
        ((getAdjacentCells ⟨3, 1, [some (mkTower .fire 1), none, none]⟩ 1 0).find?
              (fun q => match getTower ⟨3, 1, [some (mkTower .fire 1), none, none]⟩ q.1 q.2 with
                | some n => n.type == (mkTower .fire 1).type &&
                    n.tier == (mkTower .fire 1).tier && decide ((mkTower .fire 1).tier < 5)
                | none => false) = none →
          checkMerge
              { (⟨3, 1, [some (mkTower .fire 1), none, none]⟩ : Grid) with
                  cells := cellSet (⟨3, 1, [some (mkTower .fire 1), none, none]⟩ : Grid).cells
                    (getIndex ⟨3, 1, [some (mkTower .fire 1), none, none]⟩ 1 0)
                    (some { mkTower .fire 1 with col := 1, row := 0 }) } 1 0
            = ({ (⟨3, 1, [some (mkTower .fire 1), none, none]⟩ : Grid) with
                  cells := cellSet (⟨3, 1, [some (mkTower .fire 1), none, none]⟩ : Grid).cells
                    (getIndex ⟨3, 1, [some (mkTower .fire 1), none, none]⟩ 1 0)
                    (some { mkTower .fire 1 with col := 1, row := 0 }) }, [], false) ∧
            placeTower ⟨3, 1, [some (mkTower .fire 1), none, none]⟩ 1 0
                (some (mkTower .fire 1))
              = ({ (⟨3, 1, [some (mkTower .fire 1), none, none]⟩ : Grid) with
                    cells := cellSet (⟨3, 1, [some (mkTower .fire 1), none, none]⟩ : Grid).cells
                      (getIndex ⟨3, 1, [some (mkTower .fire 1), none, none]⟩ 1 0)
                      (some { mkTower .fire 1 with col := 1, row := 0 }) }, [], true))) :=
  ⟨⟨by decide, by decide, by decide, by decide, by decide, rfl⟩,
    merge_trigger_partner_order ⟨3, 1, [some (mkTower .fire 1), none, none]⟩ 1 0
      (mkTower .fire 1) (by decide) (by decide) (by decide) (by decide) (by decide) rfl⟩

/-- Witness for C10 at a concrete input: the empty cell (0,0) of a 2 by 2
grid. -/
theorem placeTower_null_true_empty_witness :
    ((0 : ℤ) ≤ 0 ∧ (0 : ℤ) < ((mkGrid 2 2).cols : ℤ) ∧ (0 : ℤ) ≤ 0 ∧
        (0 : ℤ) < ((mkGrid 2 2).rows : ℤ) ∧ getTower (mkGrid 2 2) 0 0 = none) ∧
      ((placeTower (mkGrid 2 2) 0 0 none).2.2 = true ∧
        getTower (placeTower (mkGrid 2 2) 0 0 none).1 0 0 = none) :=
  ⟨⟨by decide, by decide, by decide, by decide, rfl⟩,
    placeTower_null_true_empty _ 0 0 (by decide) (by decide) (by decide) (by decide) rfl⟩

end MergeTD
